import Mathlib

/-!
Verification of the mount-option policy engine of udisks2
(`src/udiskslinuxmountoptions.c`).

The engine decides which mount options are safe to pass to the kernel
for a request by an unprivileged caller.  This file gives a shallow
embedding of the merging and validation pipeline:

* `FSMountOptions` embeds the C struct of the same name; each `gchar **`
  member becomes `Option (List String)` (`none` = NULL pointer,
  `some []` = allocated empty vector, which the C code distinguishes).
* `strv_append_unique`, `append_fs_mount_options`,
  `override_fs_mount_options`, `compute_block_level_mount_options` and
  `compute_mount_options_for_fs_type` embed the policy-resolution layer.
  GHashTable values become association lists looked up by string
  equality (`tableLookup`); hash-iteration order in the block-scope scan
  is modelled as list order.
* `is_mount_option_allowed` embeds the allow-list evaluator, including a
  faithful model of C `strtol` (base 10) and of the `uid_t`/`gid_t`
  narrowing conversion (reduction modulo 2^32).
* `prepend_default_mount_options` embeds the default synthesizer; the
  `a{ss}` GVariant dictionary becomes a `List (String × String)` whose
  "absent value" sentinel is the 1-byte string `VARIANT_NULL_STRING`.
* `udisks_linux_calculate_mount_options` embeds the assembler; GError
  results become `Except MountError String`, with one constructor per
  distinct rejection message shape.

External collaborators (user database, udev properties, config files)
are passed in as explicit values: `UserDb` for
`udisks_daemon_util_get_user_info`/`getgrouplist`, ready-parsed policy
stores for the three policy origins, and `Bool`/`Option String` values
for the udev shared-fs flag and the caller's "options" entry.
-/

/-- Embeds `struct FSMountOptions` (udiskslinuxmountoptions.c:53-59).
Each member is a NULL-able string vector. -/
structure FSMountOptions where
  defaults : Option (List String)
  allow : Option (List String)
  allow_uid_self : Option (List String)
  allow_gid_self : Option (List String)
deriving DecidableEq

/-- A `g_malloc0`-ed `FSMountOptions`: all members NULL
(udiskslinuxmountoptions.c:269-270). -/
def FSMountOptions.init : FSMountOptions :=
  { defaults := none, allow := none, allow_uid_self := none, allow_gid_self := none }

/-- Embeds `strv_append_unique` (udiskslinuxmountoptions.c:74-110):
appends to `dest` those entries of `src` not already contained in the
original `dest` (exact string equality), in `src` order.  A NULL or
empty `src` leaves `dest` untouched; a NULL `dest` becomes a copy of
`src`. -/
def strv_append_unique (src : Option (List String)) (dest : Option (List String)) :
    Option (List String) :=
  match src with
  | none => dest
  | some s =>
    if s.isEmpty then dest
    else
      match dest with
      | none => some s
      | some d => some (d ++ s.filter (fun x => !(d.contains x)))

/-- Embeds `append_fs_mount_options` (udiskslinuxmountoptions.c:112-122):
member-wise `strv_append_unique`. -/
def append_fs_mount_options (src : FSMountOptions) (dest : FSMountOptions) : FSMountOptions :=
  { defaults := strv_append_unique src.defaults dest.defaults
    allow := strv_append_unique src.allow dest.allow
    allow_uid_self := strv_append_unique src.allow_uid_self dest.allow_uid_self
    allow_gid_self := strv_append_unique src.allow_gid_self dest.allow_gid_self }

/-- Embeds `override_fs_mount_options` (udiskslinuxmountoptions.c:125-142):
each non-NULL member of `src` replaces the corresponding member of
`dest` wholesale; NULL members of `src` leave `dest`'s member untouched.
A NULL `src` record leaves `dest` untouched. -/
def override_fs_mount_options (src : Option FSMountOptions) (dest : FSMountOptions) :
    FSMountOptions :=
  match src with
  | none => dest
  | some s =>
    { defaults := if s.defaults.isSome then s.defaults else dest.defaults
      allow := if s.allow.isSome then s.allow else dest.allow
      allow_uid_self := if s.allow_uid_self.isSome then s.allow_uid_self else dest.allow_uid_self
      allow_gid_self := if s.allow_gid_self.isSome then s.allow_gid_self else dest.allow_gid_self }

/-- Second-level GHashTable: fstype name (or "defaults") to record. -/
abbrev FSTypeTable := List (String × FSMountOptions)

/-- Two-level GHashTable: scope ("defaults" or a block device path/alias)
to fstype table. -/
abbrev PolicyStore := List (String × FSTypeTable)

/-- `g_hash_table_lookup` by string key on an association list (keys are
unique in a GHashTable; first match). -/
def tableLookup {α : Type} (t : List (String × α)) (key : String) : Option α :=
  (t.find? (fun p => p.1 == key)).map (fun p => p.2)

/-- Block-device identity used for scope matching: canonical device path
plus symlink aliases (`udisks_block_get_device` / `_get_symlinks`). -/
structure BlockInfo where
  device : String
  symlinks : List String

/-- The scan over non-"defaults" scope keys looking for one equal to the
block device path or one of its symlinks
(udiskslinuxmountoptions.c:195-220).  `g_hash_table_get_keys` order is
unspecified; it is modelled as the store's list order. -/
def find_block_scope (opts : PolicyStore) (block : BlockInfo) : Option FSTypeTable :=
  (opts.find? (fun p =>
      !(p.1 == "defaults") &&
      (p.1 == block.device || block.symlinks.contains p.1))).map (fun p => p.2)

/-- Embeds `compute_block_level_mount_options`
(udiskslinuxmountoptions.c:168-237): applies one origin's store on top
of the two accumulators (`fsmo` for the requested fstype, `fsmo_any` for
the fstype-agnostic record), first from the "defaults" scope, then from
a matching block-device scope.  The returned Bool is the `changed` flag
(used by the source only for logging). -/
def compute_block_level_mount_options (opts : PolicyStore) (block : Option BlockInfo)
    (fstype : Option String) (fsmo fsmo_any : FSMountOptions) :
    FSMountOptions × FSMountOptions × Bool :=
  let step : FSTypeTable → FSMountOptions → FSMountOptions → Bool →
      FSMountOptions × FSMountOptions × Bool := fun table f fa ch =>
    let o_any := tableLookup table "defaults"
    let fa' := override_fs_mount_options o_any fa
    let ch := ch || o_any.isSome
    let o := match fstype with
      | none => none
      | some ft => tableLookup table ft
    let f' := override_fs_mount_options o f
    (f', fa', ch || o.isSome)
  let (fsmo, fsmo_any, changed) :=
    match tableLookup opts "defaults" with
    | none => (fsmo, fsmo_any, false)
    | some general_options => step general_options fsmo fsmo_any false
  let block_options := match block with
    | none => none
    | some b => find_block_scope opts b
  match block_options with
  | none => (fsmo, fsmo_any, changed)
  | some bo => step bo fsmo fsmo_any changed

/-- Embeds `compute_mount_options_for_fs_type`
(udiskslinuxmountoptions.c:251-336).  The three policy origins are
passed as already-parsed stores: `builtin_opts` (the built-in resource,
which the source requires to be present), `config_overrides` (`none`
when the config file is missing/empty/unreadable) and `udev_overrides`
(the single-level udev table, `none` on udev error).  Returns the
effective record: fstype-specific accumulator with the fstype-agnostic
accumulator union-appended. -/
def compute_mount_options_for_fs_type (builtin_opts : PolicyStore)
    (config_overrides : Option PolicyStore) (udev_overrides : Option FSTypeTable)
    (block : Option BlockInfo) (fstype : Option String) : FSMountOptions :=
  let acc := compute_block_level_mount_options builtin_opts block fstype
      FSMountOptions.init FSMountOptions.init
  let acc := match config_overrides with
    | none => acc
    | some ov => compute_block_level_mount_options ov block fstype acc.1 acc.2.1
  let acc := match udev_overrides with
    | none => acc
    | some ov =>
      let fsmo_any := override_fs_mount_options (tableLookup ov "defaults") acc.2.1
      let o := match fstype with
        | none => none
        | some ft => tableLookup ov ft
      let fsmo := override_fs_mount_options o acc.1
      (fsmo, fsmo_any, acc.2.2)
  append_fs_mount_options acc.2.1 acc.1

/-! ## C `strtol` model and identity lookups -/

/-- C `isspace` in the default locale. -/
def isCSpace (c : Char) : Bool :=
  c == ' ' || c == '\t' || c == '\n' || c == '\x0b' || c == '\x0c' || c == '\r'

def LONG_MAX : Int := 9223372036854775807
def LONG_MIN : Int := -9223372036854775808

/-- C `strtol(s, &endp, 10)`: skip leading whitespace, optional single
sign, base-10 digits, clamping to the `long` range on overflow.
Returns the value and the suffix of `s` starting at `endp`; when no
digits were consumed, `endp` is the start of `s` (the whole input is
returned as the rest). -/
def strtol10 (s : List Char) : Int × List Char :=
  let t := s.dropWhile isCSpace
  let signNeg : Bool := match t with
    | '-' :: _ => true
    | _ => false
  let t2 := match t with
    | '-' :: r => r
    | '+' :: r => r
    | _ => t
  let digits := t2.takeWhile Char.isDigit
  let rest := t2.dropWhile Char.isDigit
  if digits.isEmpty then (0, s)
  else
    let m : Nat := digits.foldl (fun a c => a * 10 + (c.toNat - 48)) 0
    let n : Int := if signNeg then -(m : Int) else (m : Int)
    let clamped : Int := if n > LONG_MAX then LONG_MAX
      else if n < LONG_MIN then LONG_MIN else n
    (clamped, rest)

/-- Conversion of a C `long` to `uid_t`/`gid_t` (unsigned 32-bit):
reduction modulo 2^32. -/
def toUid (i : Int) : Nat := (i % 4294967296).toNat

/-- External identity collaborator:
`udisks_daemon_util_get_user_info` (primary gid by uid; `none` =
lookup failure) and `getgrouplist` (supplementary gids; `none` =
failure). -/
structure UserDb where
  primary_gid : Nat → Option Nat
  supp_gids : Nat → Option (List Nat)

/-- Embeds `is_uid_in_gid` (udiskslinuxmountoptions.c:669-709): true iff
`gid` is the uid's primary gid or among its supplementary groups; fails
closed when either lookup fails. -/
def is_uid_in_gid (db : UserDb) (uid : Nat) (gid : Nat) : Bool :=
  match db.primary_gid uid with
  | none => false
  | some pg =>
    if pg == gid then true
    else
      match db.supp_gids uid with
      | none => false
      | some gs => gs.contains gid

/-! ## Allow-list evaluator -/

/-- Rule 1 of `is_mount_option_allowed` (udiskslinuxmountoptions.c:724-736):
the exact `option=value` token is in the allow list (requires a non-NULL
allow vector and a non-empty value). -/
def rule1_explicit_allow (fsmo : FSMountOptions) (option : String) (value : Option String) :
    Bool :=
  match fsmo.allow, value with
  | some al, some v => (v != "") && al.contains (option ++ "=" ++ v)
  | _, _ => false

/-- The option name is listed in a non-NULL `allow_uid_self`
(udiskslinuxmountoptions.c:741-742). -/
def uid_self_listed (fsmo : FSMountOptions) (option : String) : Bool :=
  match fsmo.allow_uid_self with
  | some us => us.contains option
  | none => false

/-- The option name is listed in a non-NULL `allow_gid_self`
(udiskslinuxmountoptions.c:759-760). -/
def gid_self_listed (fsmo : FSMountOptions) (option : String) : Bool :=
  match fsmo.allow_gid_self with
  | some gs => gs.contains option
  | none => false

/-- The uid-self value check (udiskslinuxmountoptions.c:744-754): value
present, non-empty, fully consumed by `strtol` base 10, and equal to the
caller uid after the `uid_t` narrowing conversion. -/
def strtol_uid_self_ok (value : Option String) (caller_uid : Nat) : Bool :=
  match value with
  | none => false
  | some v =>
    if v == "" then false
    else
      let r := strtol10 v.data
      if r.2.isEmpty then toUid r.1 == caller_uid else false

/-- The gid-self value check (udiskslinuxmountoptions.c:762-772): like
the uid check but the converted gid must be one the caller belongs to. -/
def strtol_gid_self_ok (db : UserDb) (value : Option String) (caller_uid : Nat) : Bool :=
  match value with
  | none => false
  | some v =>
    if v == "" then false
    else
      let r := strtol10 v.data
      if r.2.isEmpty then is_uid_in_gid db caller_uid (toUid r.1) else false

/-- Rule 4 (udiskslinuxmountoptions.c:779-793): `option=` or bare
`option` in a non-NULL allow list. -/
def rule4_allow (fsmo : FSMountOptions) (option : String) : Bool :=
  match fsmo.allow with
  | some al => al.contains (option ++ "=") || al.contains option
  | none => false

/-- Embeds `is_mount_option_allowed` (udiskslinuxmountoptions.c:713-801).
The rule cascade is evaluated top to bottom, first match deciding; the
final fallback accepts names with the `x-` user-namespace marker.  (The
source additionally guards every rule on `fsmo != NULL`; a NULL record
behaves like `FSMountOptions.init`, which callers pass explicitly.) -/
def is_mount_option_allowed (db : UserDb) (fsmo : FSMountOptions) (option : String)
    (value : Option String) (caller_uid : Nat) : Bool :=
  if rule1_explicit_allow fsmo option value then true
  else if uid_self_listed fsmo option then strtol_uid_self_ok value caller_uid
  else if gid_self_listed fsmo option then strtol_gid_self_ok db value caller_uid
  else if rule4_allow fsmo option then true
  else "x-".data.isPrefixOf option.data

/-! ## Default synthesizer -/

/-- `VARIANT_NULL_STRING` (udiskslinuxmountoptions.c:711): the 1-byte
sentinel under which "option with no value" travels inside the
string-only `a{ss}` GVariant dictionary. -/
def VARIANT_NULL_STRING : String := "\x01"

/-- `strchr (option, '=')` made structural: splits a char list at the
first `'='`, returning the part before and the part after it, or `none`
when there is no `'='`. -/
def findEqSplit : List Char → Option (List Char × List Char)
  | [] => none
  | c :: rest =>
    if c = '=' then some ([], rest)
    else
      match findEqSplit rest with
      | none => none
      | some (n, v) => some (c :: n, v)

/-- The `gchar` value of a byte as a C signed char (bytes at and above
0x80 are negative); used by the shared-mode arithmetic below. -/
def gcharVal (c : Char) : Int :=
  if c.toNat < 128 then (c.toNat : Int) else (c.toNat : Int) - 256

/-- The shared-fs `mode` adjustment (udiskslinuxmountoptions.c:858-873):
characters 2 and 3 of the value (group and other permission digits of a
4-character octal mode string) are both set to
`MAX (value[1] - 2, '4')`, i.e. ASCII 52.  The source indexes the value
buffer unconditionally, which for values shorter than 4 bytes is an
out-of-bounds write (undefined behaviour); the model leaves missing
positions unchanged (`List.set` out of range is the identity) and does
nothing when position 1 does not exist. -/
def shared_mode_adjust (v : List Char) : List Char :=
  match v.get? 1 with
  | none => v
  | some c1 =>
    let d := max (gcharVal c1 - 2) 52
    let dc := Char.ofNat d.toNat
    (v.set 2 dc).set 3 dc

/-- One iteration of the defaults loop of `prepend_default_mount_options`
(udiskslinuxmountoptions.c:820-890) on the token `option`, emitting the
resulting `a{ss}` entries (zero entries when the gid lookup fails, one
otherwise).

Notes on fidelity: the source classifies the name part with
`strncmp (option, LIT, opt_len)` where `opt_len` is the name length, so
the test succeeds exactly when the name is a (possibly empty or proper)
prefix of the literal; the explicit-allow test checks the full
`name=value` token against the allow list. -/
def process_default_token (fsmo : FSMountOptions) (db : UserDb) (caller_uid : Nat)
    (shared_fs : Bool) (option : String) : List (String × String) :=
  match findEqSplit option.data with
  | none => [(option, VARIANT_NULL_STRING)]
  | some (nameCs, valueCs) =>
    let explicit : Bool :=
      match fsmo.allow with
      | some al => (!valueCs.isEmpty) && al.contains option
      | none => false
    if explicit then [(String.mk nameCs, String.mk valueCs)]
    else if nameCs.isPrefixOf "uid".data then [("uid", toString caller_uid)]
    else if nameCs.isPrefixOf "gid".data then
      match db.primary_gid caller_uid with
      | some g => [("gid", toString g)]
      | none => []
    else if shared_fs && nameCs.isPrefixOf "mode".data then
      [("mode", String.mk (shared_mode_adjust valueCs))]
    else if shared_fs && nameCs.isPrefixOf "dmode".data then
      [("dmode", "0555")]
    else [(String.mk nameCs, String.mk valueCs)]

/-- `g_strsplit (s, ",", -1)` on the raw comma-separated caller string:
splits at every comma (no quoting), except that the empty string yields
no pieces at all. -/
def split_on_commas : List Char → List (List Char)
  | [] => [[]]
  | c :: rest =>
    if c = ',' then [] :: split_on_commas rest
    else
      match split_on_commas rest with
      | [] => []
      | p :: ps => (c :: p) :: ps

/-- `g_strsplit` wrapper at the string level (empty input gives an empty
vector, as in GLib). -/
def g_strsplit_comma (s : String) : List String :=
  if s = "" then [] else (split_on_commas s.data).map String.mk

/-- One caller-supplied piece turned into an `a{ss}` entry
(udiskslinuxmountoptions.c:899-917): split at the first `'='` when
present, else the bare name with the null sentinel. -/
def parse_caller_option (piece : String) : String × String :=
  match findEqSplit piece.data with
  | none => (piece, VARIANT_NULL_STRING)
  | some (n, v) => (String.mk n, String.mk v)

/-- The caller part of `prepend_default_mount_options`
(udiskslinuxmountoptions.c:893-919): the "options" string of the
request's GVariant (`none` when absent) split on commas, each piece
turned into an `a{ss}` entry. -/
def caller_option_pairs (given_options : Option String) : List (String × String) :=
  match given_options with
  | none => []
  | some s => (g_strsplit_comma s).map parse_caller_option

/-- Embeds `prepend_default_mount_options`
(udiskslinuxmountoptions.c:803-922): the synthesized defaults followed
by the caller's options, in order, with no de-duplication. -/
def prepend_default_mount_options (fsmo : Option FSMountOptions) (db : UserDb)
    (caller_uid : Nat) (given_options : Option String) (shared_fs : Bool) :
    List (String × String) :=
  let from_defaults :=
    match fsmo with
    | none => []
    | some f =>
      match f.defaults with
      | none => []
      | some ds => ds.flatMap (process_default_token f db caller_uid shared_fs)
  from_defaults ++ caller_option_pairs given_options

/-! ## Assembler -/

/-- Rejection reasons of the assembler, one constructor per distinct
GError shape raised in `udisks_linux_calculate_mount_options`:
`injectionAttempt` is the "Malformed mount option \x60key'" error for a
comma inside an option name (udiskslinuxmountoptions.c:988-997),
`optionNotPermitted` the "Mount option ... is not allowed" error
(udiskslinuxmountoptions.c:1000-1020).  `malformedOptionString` is the
spec's §7 error kind for a caller string failing low-level tokenization;
it is part of the error vocabulary so that claims about it can be
stated. -/
inductive MountError where
  | injectionAttempt (key : String)
  | optionNotPermitted (key : String) (value : Option String)
  | malformedOptionString
deriving DecidableEq

/-- Maps an `a{ss}` value back to an optional value: the
`VARIANT_NULL_STRING` sentinel stands for NULL
(udiskslinuxmountoptions.c:984-986). -/
def devalue (raw : String) : Option String :=
  if raw == VARIANT_NULL_STRING then none else some raw

/-- The validation loop of `udisks_linux_calculate_mount_options`
(udiskslinuxmountoptions.c:980-1028): starting from the accumulated
output string, each candidate is checked for a comma in its name and
against the allow-list evaluator; the first failure aborts with an
error, otherwise the candidate is appended to the output. -/
def validate_mount_options (db : UserDb) (fsmo : FSMountOptions) (caller_uid : Nat) :
    List (String × String) → String → Except MountError String
  | [], acc => .ok acc
  | (key, raw) :: rest, acc =>
    let value := devalue raw
    if key.data.contains ',' then .error (.injectionAttempt key)
    else if !(is_mount_option_allowed db fsmo key value caller_uid) then
      .error (.optionNotPermitted key value)
    else
      validate_mount_options db fsmo caller_uid rest
        (acc ++ "," ++ (match value with
          | none => key
          | some v => key ++ "=" ++ v))

/-- `g_ascii_strdown`: ASCII-only lowercasing. -/
def g_ascii_strdown (s : String) : String :=
  String.mk (s.data.map (fun c =>
    if 'A' ≤ c && c ≤ 'Z' then Char.ofNat (c.toNat + 32) else c))

/-- Embeds `udisks_linux_calculate_mount_options`
(udiskslinuxmountoptions.c:940-1037): lowercase the fstype, resolve the
effective record across the three policy origins, synthesize the
candidate sequence, then validate it starting from the three fixed
safety options.  `shared_fs` is the device's `UDISKS_FILESYSTEM_SHARED`
udev flag (external input). -/
def udisks_linux_calculate_mount_options (builtin_opts : PolicyStore)
    (config_overrides : Option PolicyStore) (udev_overrides : Option FSTypeTable)
    (db : UserDb) (block : Option BlockInfo) (shared_fs : Bool) (caller_uid : Nat)
    (fs_type : String) (given_options : Option String) : Except MountError String :=
  validate_mount_options db
    (compute_mount_options_for_fs_type builtin_opts config_overrides udev_overrides
      block (some (g_ascii_strdown fs_type)))
    caller_uid
    (prepend_default_mount_options
      (some (compute_mount_options_for_fs_type builtin_opts config_overrides udev_overrides
        block (some (g_ascii_strdown fs_type))))
      db caller_uid given_options shared_fs)
    "uhelper=udisks2,nodev,nosuid"

/-- Modelled from the spec: the low-level tokenizer behind
`parse_mount_options_string` is libmount's `mnt_optstr_next_option`,
which is external to this repository.  Per the spec (§4.1) it splits on
commas with no quoting, skips empty segments, yields `(name, value?)`
tokens, and reports a syntax error for a stray `'='` (an option token
with an empty name). -/
def mnt_optstr_tokenize (s : String) : Option (List String) :=
  let pieces := (g_strsplit_comma s).filter (fun p => p != "")
  if pieces.all (fun p => !("=".data.isPrefixOf p.data)) then some pieces else none

/-- Embeds `parse_mount_options_string` (udiskslinuxmountoptions.c:341-382)
over the spec-modelled tokenizer: NULL input and tokenizer errors give
NULL, otherwise the rebuilt `name` / `name=value` token vector. -/
def parse_mount_options_string (s : Option String) : Option (List String) :=
  match s with
  | none => none
  | some str => mnt_optstr_tokenize str

/-! ## Helper lemmas -/

/-- List-level description of `strv_append_unique`: reading NULL vectors
as empty, the result is `dest` followed by the entries of `src` not
already in `dest`. -/
theorem strv_append_unique_getD (src dest : Option (List String)) :
    (strv_append_unique src dest).getD [] =
      dest.getD [] ++ (src.getD []).filter (fun x => !((dest.getD []).contains x)) := by
  cases src with
  | none => simp [strv_append_unique]
  | some s =>
    cases dest with
    | none =>
      by_cases h : s.isEmpty
      · simp [strv_append_unique, h, List.isEmpty_iff.mp h]
      · simp [strv_append_unique, h]
    | some d =>
      by_cases h : s.isEmpty
      · simp [strv_append_unique, h, List.isEmpty_iff.mp h]
      · simp [strv_append_unique, h]

/-! ## Claims -/

/-- C5: in the policy resolver, a later-precedence origin record field
that is defined (non-empty) replaces the accumulator field wholesale and
is never merged; an undefined (NULL) field leaves the accumulator field
untouched.  Concretely, built-in `{allow: [a]}` overridden by config
`{allow: [b]}` for the same scope and fstype yields effective allow
exactly `[b]`, not `[a, b]`. -/
theorem claim_C5_override_wholesale :
    (∀ (src dest : FSMountOptions) (l : List String), l ≠ [] → src.defaults = some l →
        (override_fs_mount_options (some src) dest).defaults = some l) ∧
    (∀ (src dest : FSMountOptions) (l : List String), l ≠ [] → src.allow = some l →
        (override_fs_mount_options (some src) dest).allow = some l) ∧
    (∀ (src dest : FSMountOptions) (l : List String), l ≠ [] → src.allow_uid_self = some l →
        (override_fs_mount_options (some src) dest).allow_uid_self = some l) ∧
    (∀ (src dest : FSMountOptions) (l : List String), l ≠ [] → src.allow_gid_self = some l →
        (override_fs_mount_options (some src) dest).allow_gid_self = some l) ∧
    (∀ (src dest : FSMountOptions), src.defaults = none →
        (override_fs_mount_options (some src) dest).defaults = dest.defaults) ∧
    (∀ (src dest : FSMountOptions), src.allow = none →
        (override_fs_mount_options (some src) dest).allow = dest.allow) ∧
    (∀ (src dest : FSMountOptions), src.allow_uid_self = none →
        (override_fs_mount_options (some src) dest).allow_uid_self = dest.allow_uid_self) ∧
    (∀ (src dest : FSMountOptions), src.allow_gid_self = none →
        (override_fs_mount_options (some src) dest).allow_gid_self = dest.allow_gid_self) ∧
    ((compute_mount_options_for_fs_type
        [("defaults", [("ext4", ⟨none, some ["a"], none, none⟩)])]
        (some [("defaults", [("ext4", ⟨none, some ["b"], none, none⟩)])])
        (some []) none (some "ext4")).allow = some ["b"] ∧
      (compute_mount_options_for_fs_type
        [("defaults", [("ext4", ⟨none, some ["a"], none, none⟩)])]
        (some [("defaults", [("ext4", ⟨none, some ["b"], none, none⟩)])])
        (some []) none (some "ext4")).allow ≠ some ["a", "b"]) := by
  refine ⟨?_, ?_, ?_, ?_, ?_, ?_, ?_, ?_, by decide⟩ <;>
    · intro src dest
      first
      | (intro l _ h; simp [override_fs_mount_options, h])
      | (intro h; simp [override_fs_mount_options, h])

/-- C5 witness: the defaults-field replacement applied at a concrete
record pair. -/
theorem claim_C5_override_wholesale_witness :
    (override_fs_mount_options (some ⟨some ["p"], none, none, none⟩)
      ⟨some ["q"], some ["r"], none, none⟩).defaults = some ["p"] :=
  claim_C5_override_wholesale.1 ⟨some ["p"], none, none, none⟩
    ⟨some ["q"], some ["r"], none, none⟩ ["p"] (by decide) rfl

/-- C6: merging the fstype-agnostic accumulator into the fstype-specific
one appends, per field, exactly those general entries not already
present in the specific list (exact string equality), in the general
list's order; concretely specific defaults `[x]` with general defaults
`[y]` give `[x, y]`, and `[x]` with `[x]` give just `[x]`. -/
theorem claim_C6_general_specific_union :
    (∀ (src dest : Option (List String)),
        (strv_append_unique src dest).getD [] =
          dest.getD [] ++ (src.getD []).filter (fun x => !((dest.getD []).contains x))) ∧
    (∀ (any spec : FSMountOptions),
        (append_fs_mount_options any spec).defaults.getD [] =
          spec.defaults.getD [] ++
            (any.defaults.getD []).filter (fun x => !((spec.defaults.getD []).contains x)) ∧
        (append_fs_mount_options any spec).allow.getD [] =
          spec.allow.getD [] ++
            (any.allow.getD []).filter (fun x => !((spec.allow.getD []).contains x)) ∧
        (append_fs_mount_options any spec).allow_uid_self.getD [] =
          spec.allow_uid_self.getD [] ++
            (any.allow_uid_self.getD []).filter
              (fun x => !((spec.allow_uid_self.getD []).contains x)) ∧
        (append_fs_mount_options any spec).allow_gid_self.getD [] =
          spec.allow_gid_self.getD [] ++
            (any.allow_gid_self.getD []).filter
              (fun x => !((spec.allow_gid_self.getD []).contains x))) ∧
    (compute_mount_options_for_fs_type
        [("defaults", [("defaults", ⟨some ["y"], none, none, none⟩),
                       ("ext4", ⟨some ["x"], none, none, none⟩)])]
        none (some []) none (some "ext4")).defaults = some ["x", "y"] ∧
    (compute_mount_options_for_fs_type
        [("defaults", [("defaults", ⟨some ["x"], none, none, none⟩),
                       ("ext4", ⟨some ["x"], none, none, none⟩)])]
        none (some []) none (some "ext4")).defaults = some ["x"] := by
  refine ⟨strv_append_unique_getD, ?_, by decide, by decide⟩
  intro any spec
  exact ⟨strv_append_unique_getD _ _, strv_append_unique_getD _ _,
    strv_append_unique_getD _ _, strv_append_unique_getD _ _⟩

/-- A user database in which every lookup fails (the evaluator must then
fail closed on gid-self checks). -/
def db_empty : UserDb := ⟨fun _ => none, fun _ => none⟩

/-- C4: the allow-list evaluator applies its rules top to bottom, first
match deciding: an exact `name=value` hit in the allow list wins
outright; otherwise a name listed in `allow_uid_self` (resp.
`allow_gid_self`) is decided solely by the self-match value check and is
never additionally matched against the plain allow list; only names
matching none of these fall through to the bare-name/`name=` allow
entries and then the `x-` rule. -/
theorem claim_C4_rule_order :
    (∀ (db : UserDb) (fsmo : FSMountOptions) (name v : String) (uid : Nat) (al : List String),
        fsmo.allow = some al → v ≠ "" → al.contains (name ++ "=" ++ v) = true →
        is_mount_option_allowed db fsmo name (some v) uid = true) ∧
    (∀ (db : UserDb) (fsmo : FSMountOptions) (name : String) (value : Option String)
        (uid : Nat) (us : List String),
        fsmo.allow_uid_self = some us → us.contains name = true →
        (∀ (al : List String) (v : String), fsmo.allow = some al → value = some v →
            al.contains (name ++ "=" ++ v) = false) →
        is_mount_option_allowed db fsmo name value uid = strtol_uid_self_ok value uid) ∧
    (∀ (db : UserDb) (fsmo : FSMountOptions) (name : String) (value : Option String)
        (uid : Nat) (gs : List String),
        fsmo.allow_gid_self = some gs → gs.contains name = true →
        uid_self_listed fsmo name = false →
        (∀ (al : List String) (v : String), fsmo.allow = some al → value = some v →
            al.contains (name ++ "=" ++ v) = false) →
        is_mount_option_allowed db fsmo name value uid = strtol_gid_self_ok db value uid) ∧
    (∀ (db : UserDb) (fsmo : FSMountOptions) (name : String) (value : Option String)
        (uid : Nat),
        rule1_explicit_allow fsmo name value = false →
        uid_self_listed fsmo name = false →
        gid_self_listed fsmo name = false →
        is_mount_option_allowed db fsmo name value uid =
          (rule4_allow fsmo name || "x-".data.isPrefixOf name.data)) := by
  have hrule1 : ∀ (fsmo : FSMountOptions) (name : String) (value : Option String),
      (∀ (al : List String) (v : String), fsmo.allow = some al → value = some v →
          al.contains (name ++ "=" ++ v) = false) →
      rule1_explicit_allow fsmo name value = false := by
    intro fsmo name value hnc
    cases hv : value with
    | none => cases ha : fsmo.allow <;> simp [rule1_explicit_allow, ha]
    | some v =>
      cases ha : fsmo.allow with
      | none => simp [rule1_explicit_allow, ha]
      | some al =>
        simp only [rule1_explicit_allow, ha, Bool.and_eq_false_iff]
        exact Or.inr (hnc al v ha hv)
  refine ⟨?_, ?_, ?_, ?_⟩
  · intro db fsmo name v uid al hal hv hc
    have h1 : rule1_explicit_allow fsmo name (some v) = true := by
      simp only [rule1_explicit_allow, hal, Bool.and_eq_true, bne_iff_ne, ne_eq]
      exact ⟨hv, hc⟩
    simp [is_mount_option_allowed, h1]
  · intro db fsmo name value uid us hus hname hnc
    have h1 := hrule1 fsmo name value hnc
    have h2 : uid_self_listed fsmo name = true := by
      simp only [uid_self_listed, hus]; exact hname
    simp [is_mount_option_allowed, h1, h2]
  · intro db fsmo name value uid gs hgs hname huid hnc
    have h1 := hrule1 fsmo name value hnc
    have h3 : gid_self_listed fsmo name = true := by
      simp only [gid_self_listed, hgs]; exact hname
    simp [is_mount_option_allowed, h1, huid, h3]
  · intro db fsmo name value uid h1 h2 h3
    simp only [is_mount_option_allowed, h1, h2, h3, Bool.false_eq_true, if_false]
    cases h4 : rule4_allow fsmo name <;> simp [h4]

/-- C4 witness: an exact `shortname=lower` allow entry wins even though
`shortname` is also listed in `allow_uid_self` (which would reject the
non-numeric value). -/
theorem claim_C4_rule_order_witness :
    is_mount_option_allowed db_empty ⟨none, some ["shortname=lower"], some ["shortname"], none⟩
      "shortname" (some "lower") 0 = true :=
  claim_C4_rule_order.1 db_empty ⟨none, some ["shortname=lower"], some ["shortname"], none⟩
    "shortname" "lower" 0 ["shortname=lower"] rfl (by decide) (by decide)

/-- C3 counterexample: with `allow_uid_self = ["uid"]` and requester uid
1000, the code accepts the value `4294968296` (= 1000 + 2^32): `strtol`
parses it as a long and the assignment to `uid_t` reduces it modulo
2^32 to 1000.  `4294968296` is a valid base-10 unsigned integer whose
parsed value is not the requester's uid, so the claim's
"allowed if and only if ... parsed value equals the requester's uid" is
false at this input. -/
theorem claim_C3_uid_self_counterexample :
    is_mount_option_allowed db_empty ⟨none, none, some ["uid"], none⟩ "uid"
      (some "4294968296") 1000 = true ∧
    "4294968296".data.all Char.isDigit = true ∧
    "4294968296".data.foldl (fun a c => a * 10 + (c.toNat - 48)) 0 = 4294968296 ∧
    (4294968296 : Nat) ≠ 1000 := by
  refine ⟨by decide, by decide, by decide, by decide⟩

/-- C3 (amended): for a record whose `allow_uid_self` contains the name
and whose allow list lacks the exact `name=value` token, the option is
allowed iff the value is present, non-empty and fully consumed by C
`strtol` base-10 parsing (optional leading whitespace and sign, result
clamped to the `long` range), with the parsed value reduced modulo 2^32
(the `uid_t` conversion) equal to the requester's uid; absent, empty or
partially-parsed values fail closed.  In particular `uid=1000` is
allowed for uid 1000 while `uid=1001`, `uid=abc` and bare `uid` are
not. -/
theorem claim_C3_uid_self_strtol :
    (∀ (db : UserDb) (fsmo : FSMountOptions) (name : String) (value : Option String)
        (uid : Nat) (us : List String),
        fsmo.allow_uid_self = some us → us.contains name = true →
        (∀ (al : List String) (v : String), fsmo.allow = some al → value = some v →
            al.contains (name ++ "=" ++ v) = false) →
        is_mount_option_allowed db fsmo name value uid = strtol_uid_self_ok value uid) ∧
    strtol_uid_self_ok none 1000 = false ∧
    strtol_uid_self_ok (some "") 1000 = false ∧
    is_mount_option_allowed db_empty ⟨none, none, some ["uid"], none⟩ "uid"
      (some "1000") 1000 = true ∧
    is_mount_option_allowed db_empty ⟨none, none, some ["uid"], none⟩ "uid"
      (some "1001") 1000 = false ∧
    is_mount_option_allowed db_empty ⟨none, none, some ["uid"], none⟩ "uid"
      (some "abc") 1000 = false ∧
    is_mount_option_allowed db_empty ⟨none, none, some ["uid"], none⟩ "uid"
      none 1000 = false := by
  refine ⟨?_, by decide, by decide, by decide, by decide, by decide, by decide⟩
  intro db fsmo name value uid us hus hname hnc
  have h1 : rule1_explicit_allow fsmo name value = false := by
    cases hv : value with
    | none => cases ha : fsmo.allow <;> simp [rule1_explicit_allow, ha]
    | some v =>
      cases ha : fsmo.allow with
      | none => simp [rule1_explicit_allow, ha]
      | some al =>
        simp only [rule1_explicit_allow, ha, Bool.and_eq_false_iff]
        exact Or.inr (hnc al v ha hv)
  have h2 : uid_self_listed fsmo name = true := by
    simp only [uid_self_listed, hus]; exact hname
  simp [is_mount_option_allowed, h1, h2]

/-- C3 witness: the amended equivalence applied at the record
`allow_uid_self = ["uid"]`, option `uid=1000`, requester uid 1000. -/
theorem claim_C3_uid_self_strtol_witness :
    is_mount_option_allowed db_empty ⟨none, none, some ["uid"], none⟩ "uid"
      (some "1000") 1000 = strtol_uid_self_ok (some "1000") 1000 :=
  claim_C3_uid_self_strtol.1 db_empty ⟨none, none, some ["uid"], none⟩ "uid"
    (some "1000") 1000 ["uid"] rfl (by decide) (fun _ _ h _ => nomatch h)

theorem string_data_append (a b : String) : (a ++ b).data = a.data ++ b.data := by
  cases a; cases b; rfl

theorem findEqSplit_append_eq (l m : List Char) (h : ∀ c ∈ l, c ≠ '=') :
    findEqSplit (l ++ '=' :: m) = some (l, m) := by
  induction l with
  | nil => simp [findEqSplit]
  | cons c cs ih =>
    have hc : c ≠ '=' := h c (by simp)
    simp [findEqSplit, hc, ih (fun x hx => h x (by simp [hx]))]

theorem findEqSplit_none (l : List Char) (h : ∀ c ∈ l, c ≠ '=') :
    findEqSplit l = none := by
  induction l with
  | nil => rfl
  | cons c cs ih =>
    have hc : c ≠ '=' := h c (by simp)
    simp [findEqSplit, hc, ih (fun x hx => h x (by simp [hx]))]

/-- C7: with `shared_fs`, a defaults token `mode=<v>` whose exact token
is not in the allow list is emitted with the group and other digits of
the 4-character octal value both set to `max (owner_digit - 2, '4')`
(the first two characters unchanged; owner digit 7 gives 5), and a
defaults token `dmode=<v>` not in the allow list is emitted as the fixed
value `0555` whatever `v` was. -/
theorem claim_C7_shared_mode_adjustment :
    (∀ (fsmo : FSMountOptions) (db : UserDb) (uid : Nat) (c0 c1 c2 c3 : Char),
        48 ≤ c1.toNat → c1.toNat ≤ 55 →
        (∀ (al : List String), fsmo.allow = some al →
            al.contains ("mode=" ++ String.mk [c0, c1, c2, c3]) = false) →
        process_default_token fsmo db uid true ("mode=" ++ String.mk [c0, c1, c2, c3]) =
          [("mode", String.mk [c0, c1, Char.ofNat (max (c1.toNat - 2) 52),
                               Char.ofNat (max (c1.toNat - 2) 52)])]) ∧
    (∀ (fsmo : FSMountOptions) (db : UserDb) (uid : Nat) (v : String),
        (∀ (al : List String), fsmo.allow = some al →
            al.contains ("dmode=" ++ v) = false) →
        process_default_token fsmo db uid true ("dmode=" ++ v) = [("dmode", "0555")]) := by
  constructor
  · intro fsmo db uid c0 c1 c2 c3 h48 h55 hallow
    have hsplit : findEqSplit ("mode=" ++ String.mk [c0, c1, c2, c3]).data =
        some (['m', 'o', 'd', 'e'], [c0, c1, c2, c3]) := by
      have hd : ("mode=" ++ String.mk [c0, c1, c2, c3]).data =
          ['m', 'o', 'd', 'e'] ++ '=' :: [c0, c1, c2, c3] := by
        rw [string_data_append]; rfl
      rw [hd]
      exact findEqSplit_append_eq _ _ (by decide)
    have htoNat : (max (gcharVal c1 - 2) 52).toNat = max (c1.toNat - 2) 52 := by
      unfold gcharVal
      rw [if_pos (by omega)]
      omega
    have hadj : shared_mode_adjust [c0, c1, c2, c3] =
        [c0, c1, Char.ofNat (max (c1.toNat - 2) 52), Char.ofNat (max (c1.toNat - 2) 52)] := by
      unfold shared_mode_adjust
      simp [List.set, htoNat]
    cases ha : fsmo.allow with
    | none => simp [process_default_token, findEqSplit, ha, hadj]
    | some al =>
      have hmem : "mode=" ++ String.mk [c0, c1, c2, c3] ∉ al := by
        simpa using hallow al ha
      simp [process_default_token, findEqSplit, ha, hmem, hadj]
  · intro fsmo db uid v hallow
    have hsplit : findEqSplit ("dmode=" ++ v).data =
        some (['d', 'm', 'o', 'd', 'e'], v.data) := by
      have hd : ("dmode=" ++ v).data = ['d', 'm', 'o', 'd', 'e'] ++ '=' :: v.data := by
        rw [string_data_append]; rfl
      rw [hd]
      exact findEqSplit_append_eq _ _ (by decide)
    cases ha : fsmo.allow with
    | none =>
      unfold process_default_token
      rw [hsplit]
      simp [ha]
    | some al =>
      have hmem : "dmode=" ++ v ∉ al := by simpa using hallow al ha
      unfold process_default_token
      rw [hsplit]
      simp [ha, hmem]

/-- C7 witness: the shared-mode adjustment at the concrete default
`mode=0750` under an allow list that does not contain the token: the
owner digit `7` forces group/other digits `5`, giving `0755`. -/
theorem claim_C7_shared_mode_adjustment_witness :
    process_default_token ⟨none, some ["shortname=mixed"], none, none⟩ db_empty 1000 true
        ("mode=" ++ String.mk ['0', '7', '5', '0']) =
      [("mode", String.mk ['0', '7', Char.ofNat (max ('7'.toNat - 2) 52),
                           Char.ofNat (max ('7'.toNat - 2) 52)])] ∧
    ("mode=" ++ String.mk ['0', '7', '5', '0'] = "mode=0750" ∧
      String.mk ['0', '7', Char.ofNat (max ('7'.toNat - 2) 52),
                 Char.ofNat (max ('7'.toNat - 2) 52)] = "0755") :=
  ⟨claim_C7_shared_mode_adjustment.1 ⟨none, some ["shortname=mixed"], none, none⟩
      db_empty 1000 '0' '7' '5' '0' (by decide) (by decide)
      (fun al hal => by cases hal; decide),
    by decide, by decide⟩

/-- A candidate survives the validation loop iff its name has no comma
and the allow-list evaluator accepts it (with the sentinel value read
back as "no value"). -/
def candidate_passes (db : UserDb) (fsmo : FSMountOptions) (uid : Nat)
    (p : String × String) : Bool :=
  !(p.1.data.contains ',') && is_mount_option_allowed db fsmo p.1 (devalue p.2) uid

/-- The validation loop only ever extends its accumulator: a successful
result is the starting accumulator followed by some (possibly empty)
tail. -/
theorem validate_ok_extends (db : UserDb) (fsmo : FSMountOptions) (uid : Nat) :
    ∀ (l : List (String × String)) (acc s : String),
      validate_mount_options db fsmo uid l acc = .ok s → ∃ t, s = acc ++ t := by
  intro l
  induction l with
  | nil =>
    intro acc s h
    simp only [validate_mount_options] at h
    exact ⟨"", by simp [← Except.ok.injEq acc s |>.mp h]⟩
  | cons p rest ih =>
    intro acc s h
    obtain ⟨key, raw⟩ := p
    simp only [validate_mount_options] at h
    by_cases hc : key.data.contains ',' = true
    · rw [if_pos hc] at h
      exact absurd h (by simp)
    · rw [if_neg hc] at h
      by_cases hal : is_mount_option_allowed db fsmo key (devalue raw) uid = true
      · rw [if_neg (by simp [hal])] at h
        obtain ⟨t, ht⟩ := ih _ _ h
        exact ⟨"," ++ (match devalue raw with
            | none => key
            | some v => key ++ "=" ++ v) ++ t, by
          rw [ht]; simp [String.append_assoc]⟩
      · rw [if_pos (by simp [hal])] at h
        exact absurd h (by simp)

/-- The validation loop is decided by the first failing candidate: with
none it succeeds; with one it returns the injection error for a comma in
the name and the not-permitted error (naming option and optional value)
otherwise. -/
theorem validate_first_failure (db : UserDb) (fsmo : FSMountOptions) (uid : Nat) :
    ∀ (l : List (String × String)) (acc : String),
      (l.find? (fun p => !(candidate_passes db fsmo uid p)) = none →
        ∃ s, validate_mount_options db fsmo uid l acc = .ok s) ∧
      (∀ key raw, l.find? (fun p => !(candidate_passes db fsmo uid p)) = some (key, raw) →
        validate_mount_options db fsmo uid l acc =
          .error (if key.data.contains ',' then MountError.injectionAttempt key
                  else MountError.optionNotPermitted key (devalue raw))) := by
  intro l
  induction l with
  | nil =>
    intro acc
    exact ⟨fun _ => ⟨acc, rfl⟩, fun key raw h => by simp [List.find?] at h⟩
  | cons p rest ih =>
    intro acc
    obtain ⟨key, raw⟩ := p
    by_cases hp : candidate_passes db fsmo uid (key, raw) = true
    · have hcomma : key.data.contains ',' = false := by
        have h' := hp
        unfold candidate_passes at h'
        have := (Bool.and_eq_true _ _).mp h'
        simpa using this.1
      have hal : is_mount_option_allowed db fsmo key (devalue raw) uid = true := by
        have h' := hp
        unfold candidate_passes at h'
        exact ((Bool.and_eq_true _ _).mp h').2
      have hskip : (List.find? (fun p => !(candidate_passes db fsmo uid p))
          ((key, raw) :: rest)) = rest.find? (fun p => !(candidate_passes db fsmo uid p)) :=
        List.find?_cons_of_neg _ (by simp [hp])
      constructor
      · intro hnone
        rw [hskip] at hnone
        have step : validate_mount_options db fsmo uid ((key, raw) :: rest) acc =
            validate_mount_options db fsmo uid rest
              (acc ++ "," ++ (match devalue raw with
                | none => key
                | some v => key ++ "=" ++ v)) := by
          simp only [validate_mount_options]
          rw [if_neg (by simpa using hcomma), if_neg (by simp [hal])]
        rw [step]
        exact (ih _).1 hnone
      · intro key' raw' hsome
        rw [hskip] at hsome
        have step : validate_mount_options db fsmo uid ((key, raw) :: rest) acc =
            validate_mount_options db fsmo uid rest
              (acc ++ "," ++ (match devalue raw with
                | none => key
                | some v => key ++ "=" ++ v)) := by
          simp only [validate_mount_options]
          rw [if_neg (by simpa using hcomma), if_neg (by simp [hal])]
        rw [step]
        exact (ih _).2 key' raw' hsome
    · have hhead : (List.find? (fun p => !(candidate_passes db fsmo uid p))
          ((key, raw) :: rest)) = some (key, raw) :=
        List.find?_cons_of_pos _ (by simp [hp])
      constructor
      · intro hnone
        rw [hhead] at hnone
        exact absurd hnone (by simp)
      · intro key' raw' hsome
        rw [hhead] at hsome
        obtain ⟨hk, hr⟩ : key = key' ∧ raw = raw' := by
          have h := Option.some.inj hsome
          exact ⟨congrArg Prod.fst h, congrArg Prod.snd h⟩
        subst hk; subst hr
        by_cases hc : key.data.contains ',' = true
        · rw [if_pos hc]
          simp only [validate_mount_options]
          rw [if_pos hc]
        · rw [if_neg hc]
          have hal : is_mount_option_allowed db fsmo key (devalue raw) uid = false := by
            have h' : candidate_passes db fsmo uid (key, raw) = false := by
              simpa using hp
            unfold candidate_passes at h'
            rcases Bool.and_eq_false_iff.mp h' with h1 | h2
            · exact absurd (by simpa using h1) hc
            · exact h2
          simp only [validate_mount_options]
          rw [if_neg hc, if_pos (by simp [hal])]

/-- C1: every successful run of the mount-option assembler returns a
string that begins with the three fixed safety options
`uhelper=udisks2,nodev,nosuid`; this holds for every policy store,
identity database, device, fstype and caller option string, so no
policy content or caller-supplied option can remove or precede them. -/
theorem claim_C1_safety_options_first :
    ∀ (builtin_opts : PolicyStore) (config_overrides : Option PolicyStore)
      (udev_overrides : Option FSTypeTable) (db : UserDb) (block : Option BlockInfo)
      (shared_fs : Bool) (caller_uid : Nat) (fs_type : String)
      (given_options : Option String) (s : String),
      udisks_linux_calculate_mount_options builtin_opts config_overrides udev_overrides db
          block shared_fs caller_uid fs_type given_options = .ok s →
      ∃ t, s = "uhelper=udisks2,nodev,nosuid" ++ t := by
  intro builtin_opts config_overrides udev_overrides db block shared_fs caller_uid
    fs_type given_options s h
  exact validate_ok_extends db _ caller_uid _ _ s h

/-- C1 witness: the safety-option head at a run with an empty built-in
store and no caller options, whose result is exactly the three fixed
options. -/
theorem claim_C1_safety_options_first_witness :
    ∃ t, "uhelper=udisks2,nodev,nosuid" = "uhelper=udisks2,nodev,nosuid" ++ t :=
  claim_C1_safety_options_first [] none none db_empty none false 0 "vfat" none
    "uhelper=udisks2,nodev,nosuid" rfl

/-- C2: the validation loop succeeds iff every candidate passes (no
comma in the name, allow-list evaluation true), so no returned option
string ever contains an option that failed validation; and on the first
failing candidate the whole request aborts with `InjectionAttempt` for a
comma in the name, else `OptionNotPermitted` naming the offending option
and its value when present. -/
theorem claim_C2_abort_on_failure :
    ∀ (db : UserDb) (fsmo : FSMountOptions) (uid : Nat)
      (cands : List (String × String)) (acc : String),
      ((∃ s, validate_mount_options db fsmo uid cands acc = .ok s) ↔
        ∀ p ∈ cands, candidate_passes db fsmo uid p = true) ∧
      (∀ key raw, cands.find? (fun p => !(candidate_passes db fsmo uid p)) = some (key, raw) →
        validate_mount_options db fsmo uid cands acc =
          .error (if key.data.contains ',' then MountError.injectionAttempt key
                  else MountError.optionNotPermitted key (devalue raw))) := by
  intro db fsmo uid cands acc
  refine ⟨⟨?_, ?_⟩, (validate_first_failure db fsmo uid cands acc).2⟩
  · rintro ⟨s, hs⟩ p hp
    by_contra hfail
    have hex : (cands.find? (fun p => !(candidate_passes db fsmo uid p))).isSome := by
      rw [List.find?_isSome]
      exact ⟨p, hp, by simp [hfail]⟩
    obtain ⟨⟨key, raw⟩, hfind⟩ := Option.isSome_iff_exists.mp hex
    have := (validate_first_failure db fsmo uid cands acc).2 key raw hfind
    rw [hs] at this
    exact absurd this (by simp)
  · intro hall
    refine (validate_first_failure db fsmo uid cands acc).1 ?_
    rw [List.find?_eq_none]
    intro p hp
    simp [hall p hp]

/-- C2 witness: the first-failure error shape applied at a concrete
candidate list whose head carries a comma inside its name. -/
theorem claim_C2_abort_on_failure_witness :
    validate_mount_options db_empty FSMountOptions.init 0 [("a,b", "\x01")]
      "uhelper=udisks2,nodev,nosuid" = .error (MountError.injectionAttempt "a,b") := by
  have h := (claim_C2_abort_on_failure db_empty FSMountOptions.init 0 [("a,b", "\x01")]
    "uhelper=udisks2,nodev,nosuid").2 "a,b" "\x01" (by decide)
  rw [if_pos (show "a,b".data.contains ',' = true by decide)] at h
  exact h

/-- The C8 scenario's built-in store exactly as the claim states it:
general defaults `["uid", "gid", "shortname=mixed"]` and vfat allow
`["shortname=mixed", "shortname=lower"]`. -/
def builtin_store_C8 : PolicyStore :=
  [("defaults",
    [("defaults", ⟨some ["uid", "gid", "shortname=mixed"], none, none, none⟩),
     ("vfat", ⟨none, some ["shortname=mixed", "shortname=lower"], none, none⟩)])]

/-- The C8 scenario adjusted to what the code needs for the claimed
output: defaults tokens with `=` (so that identity substitution
triggers) and `allow_uid_self`/`allow_gid_self` entries (so that the
substituted values pass validation). -/
def builtin_store_C8_amended : PolicyStore :=
  [("defaults",
    [("defaults", ⟨some ["uid=", "gid=", "shortname=mixed"], none,
                   some ["uid"], some ["gid"]⟩),
     ("vfat", ⟨none, some ["shortname=mixed", "shortname=lower"], none, none⟩)])]

/-- Identity database of the C8 scenario: uid 1000 with primary gid
1000. -/
def db1000 : UserDb :=
  ⟨fun u => if u = 1000 then some 1000 else none,
   fun u => if u = 1000 then some [1000] else none⟩

/-- C8 counterexample: with the claim's exact policy the request is
rejected, not granted.  A bare `uid` defaults token has no `=`, so the
synthesizer emits it with an absent value instead of substituting the
caller uid (udiskslinuxmountoptions.c:823-889 only substitutes when the
token contains `=`), and the record has no `allow_uid_self`/`allow`
entry covering it, so validation fails with `OptionNotPermitted` on
`uid` and the claimed string is not returned. -/
theorem claim_C8_end_to_end_counterexample :
    udisks_linux_calculate_mount_options builtin_store_C8 none (some []) db1000
        (some ⟨"/dev/sda", []⟩) false 1000 "vfat" none =
      .error (MountError.optionNotPermitted "uid" none) ∧
    udisks_linux_calculate_mount_options builtin_store_C8 none (some []) db1000
        (some ⟨"/dev/sda", []⟩) false 1000 "vfat" none ≠
      .ok "uhelper=udisks2,nodev,nosuid,uid=1000,gid=1000,shortname=mixed" := by
  constructor
  · rfl
  · intro h
    rw [show udisks_linux_calculate_mount_options builtin_store_C8 none (some []) db1000
        (some ⟨"/dev/sda", []⟩) false 1000 "vfat" none =
      .error (MountError.optionNotPermitted "uid" none) from rfl] at h
    exact Except.noConfusion h

/-- C8 (amended): the end-to-end scenario with defaults
`["uid=", "gid=", "shortname=mixed"]` and general
`allow_uid_self = ["uid"]`, `allow_gid_self = ["gid"]` added (the
minimal changes the code requires), no device-specific policy, fstype
`vfat`, requester uid 1000 with primary gid 1000 and no caller options,
returns exactly `uhelper=udisks2,nodev,nosuid,uid=1000,gid=1000,shortname=mixed`. -/
theorem claim_C8_end_to_end_amended :
    udisks_linux_calculate_mount_options builtin_store_C8_amended none (some []) db1000
        (some ⟨"/dev/sda", []⟩) false 1000 "vfat" none =
      .ok "uhelper=udisks2,nodev,nosuid,uid=1000,gid=1000,shortname=mixed" := by
  rfl

/-- A built-in store with an empty general record: resolution yields an
all-NULL effective record. -/
def store_no_defaults : PolicyStore := [("defaults", [("defaults", FSMountOptions.init)])]

/-- The validation loop of the assembler can only raise the
comma-injection and not-permitted errors, never
`MalformedOptionString`. -/
theorem validate_error_kinds (db : UserDb) (fsmo : FSMountOptions) (uid : Nat) :
    ∀ (l : List (String × String)) (acc : String) (e : MountError),
      validate_mount_options db fsmo uid l acc = .error e →
      e ≠ MountError.malformedOptionString := by
  intro l
  induction l with
  | nil =>
    intro acc e h
    exact absurd h (by simp [validate_mount_options])
  | cons p rest ih =>
    intro acc e h
    obtain ⟨key, raw⟩ := p
    simp only [validate_mount_options] at h
    by_cases hc : key.data.contains ',' = true
    · rw [if_pos hc] at h
      injection h with h'
      subst h'
      simp
    · rw [if_neg hc] at h
      by_cases hal : is_mount_option_allowed db fsmo key (devalue raw) uid = true
      · rw [if_neg (by simp [hal])] at h
        exact ih _ e h
      · rw [if_pos (by simp [hal])] at h
        injection h with h'
        subst h'
        simp

/-- C9 (amended): caller-requested option strings never produce
`MalformedOptionString`: the assembler does not run the low-level
tokenizer on caller input (it splits on commas in
`prepend_default_mount_options`, udiskslinuxmountoptions.c:893-919; the
tokenizer is used only for policy option-list values), so every
rejection is an injection or not-permitted error.  A stray `=` in the
caller string, which the low-level tokenizer would reject, instead
yields an empty-named option that fails the allow check with
`OptionNotPermitted`. -/
theorem claim_C9_no_malformed_for_caller :
    (∀ (builtin_opts : PolicyStore) (config_overrides : Option PolicyStore)
       (udev_overrides : Option FSTypeTable) (db : UserDb) (block : Option BlockInfo)
       (shared_fs : Bool) (caller_uid : Nat) (fs_type : String)
       (given_options : Option String) (e : MountError),
        udisks_linux_calculate_mount_options builtin_opts config_overrides udev_overrides db
            block shared_fs caller_uid fs_type given_options = .error e →
        e ≠ MountError.malformedOptionString) ∧
    parse_mount_options_string (some "=") = none ∧
    udisks_linux_calculate_mount_options store_no_defaults none (some []) db_empty none
        false 1000 "vfat" (some "=") =
      .error (MountError.optionNotPermitted "" (some "")) := by
  refine ⟨?_, rfl, rfl⟩
  intro builtin_opts config_overrides udev_overrides db block shared_fs caller_uid
    fs_type given_options e h
  exact validate_error_kinds db _ caller_uid _ _ e h

/-- C9 witness: the no-`MalformedOptionString` property applied at the
concrete stray-`=` run. -/
theorem claim_C9_no_malformed_for_caller_witness :
    MountError.optionNotPermitted "" (some "") ≠ MountError.malformedOptionString :=
  claim_C9_no_malformed_for_caller.1 store_no_defaults none (some []) db_empty none false
    1000 "vfat" (some "=") (MountError.optionNotPermitted "" (some "")) rfl

/-- C9 counterexample: the caller string `=` fails the low-level
tokenizer, yet the assembler rejects it with `OptionNotPermitted`
(naming the empty option), not with `MalformedOptionString` as the
claim states. -/
theorem claim_C9_counterexample :
    parse_mount_options_string (some "=") = none ∧
    udisks_linux_calculate_mount_options store_no_defaults none (some []) db_empty none
        false 1000 "vfat" (some "=") =
      .error (MountError.optionNotPermitted "" (some "")) ∧
    MountError.optionNotPermitted "" (some "") ≠ MountError.malformedOptionString :=
  ⟨rfl, rfl, by simp⟩

theorem split_on_commas_ne_nil : ∀ l : List Char, split_on_commas l ≠ [] := by
  intro l
  induction l with
  | nil => simp [split_on_commas]
  | cons c rest ih =>
    by_cases hc : c = ','
    · simp [split_on_commas, hc]
    · simp only [split_on_commas, if_neg hc]
      cases h : split_on_commas rest with
      | nil => exact absurd h ih
      | cons p ps => simp

theorem split_on_commas_append (l m : List Char) (hl : ∀ c ∈ l, c ≠ ',') :
    ∀ p ps, split_on_commas m = p :: ps →
      split_on_commas (l ++ m) = (l ++ p) :: ps := by
  induction l with
  | nil => intro p ps h; simpa using h
  | cons c cs ih =>
    intro p ps h
    have hc : c ≠ ',' := hl c (by simp)
    have hr := ih (fun x hx => hl x (by simp [hx])) p ps h
    show split_on_commas (c :: (cs ++ m)) = ((c :: cs) ++ p) :: ps
    simp only [split_on_commas, if_neg hc, List.append_eq, hr, List.cons_append]

/-- A built-in store whose general record allows the bare option
`foo`. -/
def store_allow_foo : PolicyStore :=
  [("defaults", [("defaults", ⟨none, some ["foo"], none, none⟩)])]

/-- C10: the engine represents "no value" by the 1-byte sentinel string
`\x01`, so a caller option `name=\x01` is indistinguishable from the
bare option `name`: the whole pipeline returns identical results for
both (for any policy and identity), and when allowed the option is
serialized as the bare name — concretely, with bare `foo` allowed,
caller string `foo=\x01` yields `uhelper=udisks2,nodev,nosuid,foo`. -/
theorem claim_C10_value_sentinel :
    (∀ (builtin_opts : PolicyStore) (config_overrides : Option PolicyStore)
       (udev_overrides : Option FSTypeTable) (db : UserDb) (block : Option BlockInfo)
       (shared_fs : Bool) (caller_uid : Nat) (fs_type : String) (name : String),
        name ≠ "" → (∀ c ∈ name.data, c ≠ ',') → (∀ c ∈ name.data, c ≠ '=') →
        udisks_linux_calculate_mount_options builtin_opts config_overrides udev_overrides db
            block shared_fs caller_uid fs_type (some (name ++ "=" ++ VARIANT_NULL_STRING)) =
          udisks_linux_calculate_mount_options builtin_opts config_overrides udev_overrides db
            block shared_fs caller_uid fs_type (some name)) ∧
    udisks_linux_calculate_mount_options store_allow_foo none (some []) db_empty none false
        7 "vfat" (some ("foo" ++ "=" ++ VARIANT_NULL_STRING)) =
      .ok "uhelper=udisks2,nodev,nosuid,foo" := by
  constructor
  · intro builtin_opts config_overrides udev_overrides db block shared_fs caller_uid
      fs_type name hne hnc hneq
    have hdata : (name ++ "=" ++ VARIANT_NULL_STRING).data = name.data ++ ['=', '\x01'] := by
      rw [string_data_append, string_data_append,
          show ("=" : String).data = ['='] from rfl,
          show VARIANT_NULL_STRING.data = ['\x01'] from rfl]
      simp
    have hsplit1 : split_on_commas (name.data ++ ['=', '\x01']) =
        [name.data ++ ['=', '\x01']] :=
      split_on_commas_append name.data ['=', '\x01'] hnc ['=', '\x01'] [] rfl
    have hsplit2 : split_on_commas name.data = [name.data] := by
      have := split_on_commas_append name.data [] hnc [] [] rfl
      simpa using this
    have hne1 : name ++ "=" ++ VARIANT_NULL_STRING ≠ "" := by
      intro h
      have h2 := congrArg String.data h
      rw [hdata] at h2
      simp at h2
    have hpoint : parse_caller_option (String.mk (name.data ++ ['=', '\x01'])) =
        parse_caller_option (String.mk name.data) := by
      unfold parse_caller_option
      rw [show (String.mk (name.data ++ ['=', '\x01'])).data =
            name.data ++ '=' :: ['\x01'] from rfl,
          findEqSplit_append_eq name.data ['\x01'] hneq,
          show (String.mk name.data).data = name.data from rfl,
          findEqSplit_none name.data hneq]
      rfl
    have hcaller :
        (g_strsplit_comma (name ++ "=" ++ VARIANT_NULL_STRING)).map parse_caller_option =
        (g_strsplit_comma name).map parse_caller_option := by
      unfold g_strsplit_comma
      rw [if_neg hne1, if_neg hne, hdata, hsplit1, hsplit2]
      simp only [List.map_map, List.map_cons, List.map_nil]
      rw [hpoint]
    have hco : caller_option_pairs (some (name ++ "=" ++ VARIANT_NULL_STRING)) =
        caller_option_pairs (some name) := by
      show (g_strsplit_comma (name ++ "=" ++ VARIANT_NULL_STRING)).map parse_caller_option =
        (g_strsplit_comma name).map parse_caller_option
      exact hcaller
    unfold udisks_linux_calculate_mount_options prepend_default_mount_options
    rw [hco]
  · rfl

/-- C10 witness: the sentinel equivalence at the concrete option name
`bar` under the `store_allow_foo` policy. -/
theorem claim_C10_value_sentinel_witness :
    udisks_linux_calculate_mount_options store_allow_foo none (some []) db_empty none false
        7 "vfat" (some ("bar" ++ "=" ++ VARIANT_NULL_STRING)) =
      udisks_linux_calculate_mount_options store_allow_foo none (some []) db_empty none false
        7 "vfat" (some "bar") :=
  claim_C10_value_sentinel.1 store_allow_foo none (some []) db_empty none false 7 "vfat"
    "bar" (by decide) (by decide) (by decide)
